import Mathlib

/-!
Shallow embedding of the keyva-lang core evaluator
(src/keyva-lang-c/src/main/main.c and kvstdlib.c).

C doubles are modelled as exact rationals `Qv` (integer numerator over a
positive natural denominator, kept normalized by a fuel-driven gcd so that
every operation is kernel-reducible).  `atof` is modelled by `parseNum` and
the `%g` conversion used by `snprintf` is modelled by `fmtG` (six significant
digits, trailing zeros stripped, scientific style when the decimal exponent
is below -4 or at least 6).  Associative arrays are ordered lists of
key/value string pairs with unique keys; the variable store is the pair of a
backing vector (entries beyond the written prefix read as zeroed, matching
the zero-initialized C globals) and the `variable_count` index, so that the
scope-stack behaviour of `push_scope`/`pop_scope` is reproduced exactly,
including the fact that `pop_scope` assigns the saved count to a local
variable that shadows the global one.
-/

/-- Fuel-driven Euclid; `gcdF (a+b+1) a b` computes `Nat.gcd a b`. -/
def gcdF : Nat → Nat → Nat → Nat
  | 0, _, b => b
  | _+1, 0, b => b
  | f+1, a+1, b => gcdF f (b % (a+1)) (a+1)

def natGcd (a b : Nat) : Nat := gcdF (a+b+1) a b

/-- Exact rational stand-in for the C `double`. -/
structure Qv where
  num : Int
  den : Nat
  deriving DecidableEq, Repr

def mkQv (n : Int) (d : Nat) : Qv :=
  if d = 0 then ⟨0, 1⟩
  else
    let g := natGcd n.natAbs d
    ⟨n / (g : Int), d / g⟩

def mkQvZ (n d : Int) : Qv :=
  if d < 0 then mkQv (-n) (-d).toNat else mkQv n d.toNat

def Qv.ofNat (n : Nat) : Qv := ⟨(n : Int), 1⟩

def Qv.add (a b : Qv) : Qv := mkQv (a.num * b.den + b.num * a.den) (a.den * b.den)

def Qv.sub (a b : Qv) : Qv := mkQv (a.num * b.den - b.num * a.den) (a.den * b.den)

def Qv.mul (a b : Qv) : Qv := mkQv (a.num * b.num) (a.den * b.den)

def Qv.div (a b : Qv) : Qv := mkQvZ (a.num * b.den) ((a.den : Int) * b.num)

def Qv.neg (a : Qv) : Qv := ⟨-a.num, a.den⟩

def Qv.blt (a b : Qv) : Bool := a.num * b.den < b.num * a.den

def Qv.ble (a b : Qv) : Bool := a.num * b.den ≤ b.num * a.den

def Qv.isZero (a : Qv) : Bool := a.num = 0

/-- Floor of `n / d` for positive `d`. -/
def floorDiv (n : Int) (d : Nat) : Int :=
  if 0 ≤ n then (n.toNat / d : Nat)
  else -(((n.natAbs + d - 1) / d : Nat) : Int)

def Qv.floor (a : Qv) : Int := floorDiv a.num a.den

/-- Truncation toward zero, the C `(int)` cast applied to a double. -/
def Qv.trunc (a : Qv) : Int := a.num.sign * ((a.num.natAbs / a.den : Nat) : Int)

/-- Round half away handled as floor(x + 1/2), standing in for printf rounding. -/
def Qv.round6 (a : Qv) : Int := floorDiv (2 * a.num + a.den) (2 * a.den)

def pow10Q (e : Int) : Qv :=
  if 0 ≤ e then ⟨((10:Nat)^e.toNat : Nat), 1⟩ else ⟨1, (10:Nat)^(-e).toNat⟩

/-- Decimal digits of a natural number, most significant first (fuel-driven). -/
def natToDigsF : Nat → Nat → List Char
  | 0, _ => []
  | f+1, n =>
    if n < 10 then [Char.ofNat (48 + n)]
    else natToDigsF f (n / 10) ++ [Char.ofNat (48 + n % 10)]

def natToDigs (n : Nat) : List Char := natToDigsF (n+1) n

def natStr (n : Nat) : String := String.mk (natToDigs n)

def stripZeros (ds : List Char) : List Char :=
  (ds.reverse.dropWhile (· = '0')).reverse

/-- Smallest `k ≥ k0` with `x * 10^k ≥ 1`, searched with fuel. -/
def findNegExp : Nat → Nat → Qv → Nat
  | 0, k, _ => k
  | f+1, k, x => if Qv.ble ⟨1,1⟩ (x.mul (pow10Q k)) then k else findNegExp f (k+1) x

/-- Decimal exponent: the unique `e` with `10^e ≤ x < 10^(e+1)` (for `x > 0`). -/
def decExp (x : Qv) : Int :=
  if Qv.ble ⟨1,1⟩ x then ((natToDigs x.floor.toNat).length - 1 : Nat)
  else -(findNegExp x.den 1 x : Int)

def pad2 (n : Nat) : String := if n < 10 then "0" ++ natStr n else natStr n

def fixedStr (ds : List Char) (e : Int) : String :=
  if 0 ≤ e then
    let ip := ds.take (e.toNat + 1)
    let fp := stripZeros (ds.drop (e.toNat + 1))
    String.mk ip ++ (if fp = [] then "" else "." ++ String.mk fp)
  else
    "0." ++ String.mk (List.replicate ((-e).toNat - 1) '0') ++ String.mk (stripZeros ds)

def sciStr (ds : List Char) (e : Int) : String :=
  let rest := stripZeros ds.tail
  String.mk [ds.headD '0'] ++ (if rest = [] then "" else "." ++ String.mk rest) ++
    "e" ++ (if e < 0 then "-" else "+") ++ pad2 e.natAbs

/-- `%g` for a positive rational: six significant digits. -/
def fmtGpos (x : Qv) : String :=
  let e := decExp x
  let M := (x.mul (pow10Q (5 - e))).round6
  let M2 := if M = 1000000 then (100000 : Int) else M
  let e2 := if M = 1000000 then e + 1 else e
  let ds := natToDigs M2.toNat
  if 6 ≤ e2 ∨ e2 < -4 then sciStr ds e2 else fixedStr ds e2

/-- The `%g` conversion used by every `snprintf(..., "%g", v)` in the source. -/
def fmtG (q : Qv) : String :=
  if q.num = 0 then "0"
  else if q.num < 0 then "-" ++ fmtGpos q.neg
  else fmtGpos q

/-- Digit run: accumulated value, number of digits consumed, rest. -/
def readDigits : List Char → Nat → Nat → Nat × Nat × List Char
  | [], v, n => (v, n, [])
  | c :: cs, v, n =>
    if c.isDigit then readDigits cs (10*v + (c.toNat - 48)) (n+1) else (v, n, c :: cs)

def readExpDigits : List Char → Option Int
  | [] => none
  | cs =>
    let (sgn, cs2) : Int × List Char :=
      match cs with
      | '-' :: r => (-1, r)
      | '+' :: r => (1, r)
      | r => (1, r)
    match cs2 with
    | c :: _ =>
      if c.isDigit then
        let (v, _, _) := readDigits cs2 0 0
        some (sgn * v)
      else none
    | [] => none

/-- Model of C `atof`: sign, integer part, optional fraction, optional exponent;
parsing stops at the first character that does not fit. -/
def parseNum (s : String) : Qv :=
  let cs := s.data.dropWhile (·.isWhitespace)
  let (neg, cs1) : Bool × List Char :=
    match cs with
    | '-' :: r => (true, r)
    | '+' :: r => (false, r)
    | r => (false, r)
  let (iv, _, cs2) := readDigits cs1 0 0
  let (fv, fd, cs3) : Nat × Nat × List Char :=
    match cs2 with
    | '.' :: r => let (a, b, c) := readDigits r 0 0; (a, b, c)
    | r => (0, 0, r)
  let mant : Qv := mkQv ((iv * 10^fd + fv : Nat) : Int) (10^fd)
  let ex : Int :=
    match cs3 with
    | 'e' :: r => (readExpDigits r).getD 0
    | 'E' :: r => (readExpDigits r).getD 0
    | _ => 0
  let v := mant.mul (pow10Q ex)
  if neg then v.neg else v

/-- The literal numeric test used throughout the evaluator: first char is a
digit, or a minus followed by a digit. -/
def isNumLexeme (s : String) : Bool :=
  match s.data with
  | [] => false
  | c :: rest =>
    c.isDigit ||
      (c = '-' && match rest with
                  | d :: _ => d.isDigit
                  | [] => false)

/-! ## AST (kvlang_internals.h): expressions, statements, functions -/

inductive OpKind
  | add | sub | mul | div | lt | gt | eq | ne | le | ge
  deriving DecidableEq, Repr

inductive Expr
  | lit (text : String)
  | ident (name : String)
  | arrAccess (name : String) (index : Expr)
  | binop (op : OpKind) (l r : Expr)
  | call (name : String) (args : List Expr)
  deriving Repr

inductive Target
  | id (x : String)
  | elem (x : String) (index : Expr)
  deriving Repr

inductive Stmt
  | print (e : Expr)
  | assign (tgt : Target) (e : Expr)
  | ifS (cond : Expr) (thn els : List Stmt)
  | whileS (cond : Expr) (body : List Stmt)
  | forS (loopVar : String) (e : Expr) (body : List Stmt)
  | funcDef (name : String) (params : List String) (body : List Stmt)
  | callS (name : String) (args : List Expr)
  | ret (e : Expr)
  deriving Repr

/-- `FunctionEntry`: registered at parse time, immutable during execution. -/
structure Func where
  name : String
  params : List String
  body : List Stmt
  deriving Repr

def isArithOp : OpKind → Bool
  | .add | .sub | .mul | .div => true
  | _ => false

def applyOp (op : OpKind) (a b : Qv) : Qv :=
  match op with
  | .add => a.add b
  | .sub => a.sub b
  | .mul => a.mul b
  | .div => a.div b
  | .lt => if a.blt b then ⟨1,1⟩ else ⟨0,1⟩
  | .gt => if b.blt a then ⟨1,1⟩ else ⟨0,1⟩
  | .eq => if a = b then ⟨1,1⟩ else ⟨0,1⟩
  | .ne => if a = b then ⟨0,1⟩ else ⟨1,1⟩
  | .le => if a.ble b then ⟨1,1⟩ else ⟨0,1⟩
  | .ge => if b.ble a then ⟨1,1⟩ else ⟨0,1⟩

/-! ## Associative arrays and the variable store (main.c) -/

/-- `set_assoc_array_value`: update the first matching key in place, else append. -/
def setA : List (String × String) → String → String → List (String × String)
  | [], k, v => [(k, v)]
  | (k0, v0) :: rest, k, v =>
    if k0 = k then (k0, v) :: rest else (k0, v0) :: setA rest k v

/-- `get_assoc_array_value`. -/
def getA (a : List (String × String)) (k : String) : Option String :=
  (a.find? (fun p => p.1 = k)).map (·.2)

/-- `duplicate_assoc_array` / the copy loop in `set_variable_assoc_array`. -/
def copyInto (dst src : List (String × String)) : List (String × String) :=
  src.foldl (fun acc p => setA acc p.1 p.2) dst

structure Variable where
  name : String
  arr : List (String × String)
  deriving DecidableEq, Repr

/-- A zeroed `Variable` slot, as in the zero-initialized C global array. -/
def zeroVar : Variable := ⟨"", []⟩

def maxVariables : Nat := 100
def maxScopes : Nat := 100

/-- Interpreter state: `variables` backing array (prefix; entries past the
list read as `zeroVar`), the global `variable_count`, the scope stack
(saved backing array and saved count), and the printed lines. -/
structure St where
  vars : List Variable
  varCount : Nat
  scopes : List (List Variable × Nat)
  out : List String
  deriving DecidableEq, Repr

def backing (st : St) (i : Nat) : Variable := st.vars.getD i zeroVar

/-- Write slot `i` of the backing array (padding with zeroed slots, as the C
global array is zero-initialized beyond the written prefix). -/
def setBacking : List Variable → Nat → Variable → List Variable
  | [], 0, v => [v]
  | [], i+1, v => zeroVar :: setBacking [] i v
  | _ :: rest, 0, v => v :: rest
  | w :: rest, i+1, v => w :: setBacking rest i v

/-- The search loop `for (i = 0; i < variable_count; i++)`: first slot in
`[i0, i0+rem)` whose name matches. -/
def findIdxFrom (st : St) (name : String) : Nat → Nat → Option Nat
  | 0, _ => none
  | rem+1, i => if (backing st i).name = name then some i else findIdxFrom st name rem (i+1)

/-- Index of `name` among `variables[0 .. variable_count)`, first match. -/
def findVarIdx (st : St) (name : String) : Option Nat :=
  findIdxFrom st name st.varCount 0

/-- `get_variable`, together with the index the returned pointer refers to. -/
def lookupVar (st : St) (name : String) : Option (Nat × Variable) :=
  match findVarIdx st name with
  | none => none
  | some i => some (i, backing st i)

/-- A `RESULT_ASSOC_ARRAY` payload: a pointer into `variables[i].array`, or a
heap copy that no variable aliases. -/
inductive ArrRef
  | var (i : Nat)
  | tmp (a : List (String × String))
  deriving DecidableEq, Repr

def derefArr (st : St) : ArrRef → List (String × String)
  | .var i => (backing st i).arr
  | .tmp a => a

def errMaxVars : String := "Error: Maximum number of variables reached"

/-- `set_variable_value` (key `none` plays the C `NULL`, meaning the default
key `""`). -/
def setVarValue (st : St) (name : String) (key : Option String) (value : String) : St :=
  match findVarIdx st name with
  | some i =>
    let var := backing st i
    { st with vars := setBacking st.vars i { var with arr := setA var.arr (key.getD "") value } }
  | none =>
    if maxVariables ≤ st.varCount then
      { st with out := st.out ++ [errMaxVars] }
    else
      { st with
          vars := setBacking st.vars st.varCount ⟨name, setA [] (key.getD "") value⟩,
          varCount := st.varCount + 1 }

/-- `set_variable_assoc_array`: the destination array is freed and re-created
before the source pointer is read, so a self-assignment copies nothing. -/
def setVarAssoc (st : St) (name : String) (r : ArrRef) : St :=
  match findVarIdx st name with
  | some i =>
    let st1 := { st with vars := setBacking st.vars i { backing st i with arr := [] } }
    let src := derefArr st1 r
    { st1 with vars := setBacking st1.vars i { backing st1 i with arr := copyInto [] src } }
  | none =>
    if maxVariables ≤ st.varCount then
      { st with out := st.out ++ [errMaxVars] }
    else
      let st1 := { st with
                     vars := setBacking st.vars st.varCount ⟨name, []⟩,
                     varCount := st.varCount + 1 }
      let src := derefArr st1 r
      { st1 with vars := setBacking st1.vars st.varCount ⟨name, copyInto [] src⟩ }

/-- `clear_variable_assoc_array`. -/
def clearVar (st : St) (name : String) : St :=
  match findVarIdx st name with
  | some i => { st with vars := setBacking st.vars i { backing st i with arr := [] } }
  | none => st

/-- `push_scope`: saves the whole backing array and the count, then zeroes the
count; on overflow it reports and changes nothing. -/
def pushScope (st : St) : St :=
  if maxScopes ≤ st.scopes.length then
    { st with out := st.out ++ ["Error: Scope stack overflow"] }
  else
    { st with scopes := (st.vars, st.varCount) :: st.scopes, varCount := 0 }

/-- `pop_scope`: restores the backing array, but the saved count is assigned
to a local `int variable_count` that shadows the global, so the global count
keeps the callee value (main.c line 1879). -/
def popScope (st : St) : St :=
  match st.scopes with
  | [] => { st with out := st.out ++ ["Error: Scope stack underflow"] }
  | (sv, _) :: rest => { st with vars := sv, scopes := rest }

/-! ## Evaluation results and diagnostics -/

inductive Ctx
  | arith
  | print
  deriving DecidableEq, Repr

/-- `EvalResult`: number, string, or borrowed array reference. -/
inductive EvalVal
  | num (q : Qv)
  | str (s : String)
  | arr (r : ArrRef)
  deriving DecidableEq, Repr

/-- `FunctionReturn` payload: arrays in a return are deep copies. -/
inductive RVal
  | num (q : Qv)
  | str (s : String)
  | arr (a : List (String × String))
  deriving DecidableEq, Repr

structure FunRet where
  hasReturn : Bool
  val : RVal
  deriving DecidableEq, Repr

def noRet : FunRet := ⟨false, .num ⟨0,1⟩⟩
def retNumZero : FunRet := ⟨true, .num ⟨0,1⟩⟩

/-- The repeated idiom: parse as a number when the text looks numeric. -/
def valueOfText (t : String) : EvalVal :=
  if isNumLexeme t then .num (parseNum t) else .str t

/-- Index conversion: a numeric index is rendered with `%g`. -/
def keyText : EvalVal → String
  | .num q => fmtG q
  | .str s => s
  | .arr _ => ""

/-- C truncated division and remainder, `(int)a % (int)b`. -/
def tdivZ (a b : Int) : Int := a.sign * b.sign * ((a.natAbs / b.natAbs : Nat) : Int)

def tmodZ (a b : Int) : Int := a - tdivZ a b * b

def fmtPair (p : String × String) : String := "\"" ++ p.1 ++ "\": \"" ++ p.2 ++ "\""

def joinComma : List String → String
  | [] => ""
  | [x] => x
  | x :: xs => x ++ ", " ++ joinComma xs

/-- `print_assoc_array` output line. -/
def fmtArr (a : List (String × String)) : String :=
  "\x7b" ++ joinComma (a.map fmtPair) ++ "\x7d"

/-- While-loop truthiness (numbers, strings, and array size). -/
def truthy (st : St) : EvalVal → Bool
  | .num q => !q.isZero
  | .str s => 0 < s.length
  | .arr r => 0 < (derefArr st r).length

def errUndefVar (name : String) : String :=
  "Error: Undefined variable \x27" ++ name ++ "\x27"
def errKeyNotFound (key name : String) : String :=
  "Error: Key \x27" ++ key ++ "\x27 not found in variable \x27" ++ name ++ "\x27"
def errUndefFunc (name : String) : String :=
  "Error: Undefined function \x27" ++ name ++ "\x27"
def errFailIndex : String := "Error: Failed to evaluate array index"
def errIndexType : String := "Error: Array index must be a string or number"
def errAssignIndexType : String := "Assignment Error: Array index must be a string or number"
def errOperands : String :=
  "Error: Both operands must be numbers for arithmetic or relational operations"
def errIfCond : String := "Error: Failed to evaluate condition in if statement"
def errIfType : String := "Error: Invalid condition type in if statement"
def errWhileCond : String := "Error: Failed to evaluate condition in while statement"
def errForExpr : String := "Error: Failed to evaluate expression in for statement"
def errAssignExpr : String := "Error: Failed to evaluate expression in assignment"
def errCannotAssignArr : String := "Error: Cannot assign an associative array to an array element"
def errFailArg : String := "Error: Failed to evaluate argument"
def errFailRet : String := "Error: Failed to evaluate return expression"
def errUnknownWR : String :=
  "Error: While executing the AST (with return) - Unknown AST node type"
def errUnknownAst12 : String :=
  "Error: While executing the AST - Unknown AST node type (12)"
def errLenArgs : String := "Error: len() requires exactly one argument"
def errLenFail : String := "Error: Failed to evaluate argument in len()"
def errKeyArgs : String := "Error: key() requires exactly one argument"
def errModArgs : String := "Error: mod() requires exactly two argument"
def errMod1 : String := "Error: Failed to evaluate 1st argument in mod()"
def errMod2 : String := "Error: Failed to evaluate 2nd argument in mod()"

def emit (st : St) (line : String) : St := { st with out := st.out ++ [line] }

/-- Computation result: `.oof` means the step budget ran out (the C code has
no such budget; theorems quantify over budgets that complete). -/
inductive Res (α : Type)
  | ok (a : α)
  | oof
  deriving DecidableEq, Repr

def Res.bind {α β : Type} : Res α → (α → Res β) → Res β
  | .ok a, f => f a
  | .oof, _ => .oof

instance : Monad Res where
  pure := .ok
  bind := Res.bind

/-- `find_function` (first match wins). -/
def findFunc (fs : List Func) (name : String) : Option Func :=
  fs.find? (fun f => f.name = name)

/-- `set_variable_from_eval_result`. -/
def setVarFromEval (st : St) (name : String) (v : EvalVal) : St :=
  match v with
  | .num q => setVarValue st name none (fmtG q)
  | .str s => setVarValue st name none s
  | .arr r => setVarAssoc st name r

/-- Parameter binding in `execute_function_call`: parameters beyond the
evaluated arguments get the string "0". -/
def bindParams (st : St) : List String → List EvalVal → St
  | [], _ => st
  | p :: ps, v :: vs => bindParams (setVarFromEval st p v) ps vs
  | p :: ps, [] => bindParams (setVarValue st p none "0") ps []

/-! ## The evaluator (main.c, kvstdlib.c), fuel-indexed mutual recursion -/

mutual

/-- `evaluate_expression`. -/
def evalExpr (fs : List Func) : Nat → Expr → Ctx → St → Res (St × Option EvalVal)
  | 0, _, _, _ => .oof
  | _+1, .lit t, _, st => .ok (st, some (valueOfText t))
  | _+1, .ident name, ctx, st =>
    match lookupVar st name with
    | none => .ok (emit st (errUndefVar name), none)
    | some (i, var) =>
      match ctx with
      | .arith =>
        if var.arr.length = 1 then
          .ok (st, some (valueOfText (var.arr.headD ("", "")).2))
        else .ok (st, some (.arr (.var i)))
      | .print =>
        if var.arr.length = 1 then
          .ok (st, some (.str (var.arr.headD ("", "")).2))
        else .ok (st, some (.arr (.var i)))
  | f+1, .arrAccess name idx, _, st => do
    let (st1, kr) ← evalExpr fs f idx .arith st
    match kr with
    | none => .ok (emit st1 errFailIndex, none)
    | some (.arr _) => .ok (emit st1 errIndexType, none)
    | some kv =>
      let key := keyText kv
      match lookupVar st1 name with
      | none => .ok (emit st1 (errUndefVar name), none)
      | some (_, var) =>
        match getA var.arr key with
        | some v => .ok (st1, some (valueOfText v))
        | none => .ok (emit st1 (errKeyNotFound key name), none)
  | f+1, .binop op l r, ctx, st => do
    let opCtx := if isArithOp op then Ctx.arith else ctx
    let (st1, lr) ← evalExpr fs f l opCtx st
    match lr with
    | none => .ok (st1, none)
    | some lv => do
      let (st2, rr) ← evalExpr fs f r opCtx st1
      match rr with
      | none => .ok (st2, none)
      | some rv =>
        match lv, rv with
        | .num a, .num b => .ok (st2, some (.num (applyOp op a b)))
        | _, _ => .ok (emit st2 errOperands, none)
  | f+1, .call name args, _, st => do
    let (st1, r) ← execCall fs f name args st
    if r.hasReturn then
      match r.val with
      | .num q => .ok (st1, some (.num q))
      | .arr a => .ok (st1, some (.arr (.tmp a)))
      | .str s => .ok (st1, some (.str s))
    else .ok (st1, some (.num ⟨0,1⟩))

/-- `kvstdlib_len`. -/
def kvstdlibLen (fs : List Func) : Nat → List Expr → St → Res (St × FunRet)
  | 0, _, _ => .oof
  | f+1, args, st =>
    match args with
    | [a] => do
      let (st1, r) ← evalExpr fs f a .print st
      match r with
      | none => .ok (emit st1 errLenFail, retNumZero)
      | some (.arr ref) => .ok (st1, ⟨true, .num (Qv.ofNat (derefArr st1 ref).length)⟩)
      | some _ => .ok (st1, ⟨true, .num ⟨1,1⟩⟩)
    | _ => .ok (emit st errLenArgs, retNumZero)

/-- `kvstdlib_key` (reading `pairs[0].key` of an empty array is modelled as
the zeroed slot, i.e. the empty string). -/
def kvstdlibKey (fs : List Func) : Nat → List Expr → St → Res (St × FunRet)
  | 0, _, _ => .oof
  | f+1, args, st =>
    match args with
    | [a] =>
      match a with
      | .ident name =>
        match lookupVar st name with
        | some (_, var) => .ok (st, ⟨true, .str (var.arr.headD ("", "")).1⟩)
        | none => .ok (st, ⟨true, .str ""⟩)
      | .arrAccess _ idx => do
        let (st1, r) ← evalExpr fs f idx .arith st
        match r with
        | none => .ok (emit st1 errFailIndex, ⟨true, .str ""⟩)
        | some (.arr _) => .ok (emit st1 errIndexType, ⟨true, .str ""⟩)
        | some kv => .ok (st1, ⟨true, .str (keyText kv)⟩)
      | _ => .ok (st, ⟨true, .str ""⟩)
    | _ => .ok (emit st errKeyArgs, ⟨true, .str ""⟩)

/-- `kvstdlib_mod`: needs at least two arguments, extras are ignored; a
non-number argument yields 0 with no diagnostic. -/
def kvstdlibMod (fs : List Func) : Nat → List Expr → St → Res (St × FunRet)
  | 0, _, _ => .oof
  | f+1, args, st =>
    match args with
    | a1 :: a2 :: _ => do
      let (st1, r1) ← evalExpr fs f a1 .arith st
      match r1 with
      | none => .ok (emit st1 errMod1, retNumZero)
      | some v1 => do
        let (st2, r2) ← evalExpr fs f a2 .arith st1
        match r2 with
        | none => .ok (emit st2 errMod2, retNumZero)
        | some v2 =>
          match v1, v2 with
          | .num a, .num b => .ok (st2, ⟨true, .num ⟨tmodZ a.trunc b.trunc, 1⟩⟩)
          | _, _ => .ok (st2, retNumZero)
    | _ => .ok (emit st errModArgs, retNumZero)

/-- Argument evaluation loop of `execute_function_call`: runs while both a
parameter and an argument remain; `none` signals a failed argument. -/
def evalArgsLoop (fs : List Func) : Nat → List String → List Expr → St →
    Res (St × Option (List EvalVal))
  | 0, _, _, _ => .oof
  | _+1, [], _, st => .ok (st, some [])
  | _+1, _ :: _, [], st => .ok (st, some [])
  | f+1, _ :: ps, a :: ags, st => do
    let (st1, r) ← evalExpr fs f a .arith st
    match r with
    | none => .ok (st1, none)
    | some v => do
      let (st2, rest) ← evalArgsLoop fs f ps ags st1
      match rest with
      | none => .ok (st2, none)
      | some vs => .ok (st2, some (v :: vs))

/-- `execute_function_call`: built-ins first (table order), then user
functions; on an argument failure the code pops a scope it never pushed. -/
def execCall (fs : List Func) : Nat → String → List Expr → St → Res (St × FunRet)
  | 0, _, _, _ => .oof
  | f+1, name, args, st =>
    if name = "len" then kvstdlibLen fs f args st
    else if name = "key" then kvstdlibKey fs f args st
    else if name = "mod" then kvstdlibMod fs f args st
    else if name = "bar" then .ok (st, ⟨true, .str ""⟩)
    else
      match findFunc fs name with
      | none => .ok (emit st (errUndefFunc name), retNumZero)
      | some fn => do
        let (st1, vals) ← evalArgsLoop fs f fn.params args st
        match vals with
        | none => .ok (popScope (emit st1 errFailArg), retNumZero)
        | some vs =>
          let st2 := bindParams (pushScope st1) fn.params vs
          do
            let (st3, br) ← execBlockWR fs f fn.body st2
            let st4 := popScope st3
            if br.hasReturn then .ok (st4, br) else .ok (st4, retNumZero)

/-- `evaluate_and_print`. -/
def evalAndPrint (fs : List Func) : Nat → Expr → St → Res St
  | 0, _, _ => .oof
  | f+1, e, st => do
    let (st1, r) ← evalExpr fs f e .print st
    match r with
    | none => .ok st1
    | some (.str s) => .ok (emit st1 s)
    | some (.num q) => .ok (emit st1 (fmtG q))
    | some (.arr ref) => .ok (emit st1 (fmtArr (derefArr st1 ref)))

/-- `execute_assignment`. -/
def execAssign (fs : List Func) : Nat → Target → Expr → St → Res St
  | 0, _, _, _ => .oof
  | f+1, tgt, e, st => do
    let (st1, r) ← evalExpr fs f e .arith st
    match r with
    | none => .ok (emit st1 errAssignExpr)
    | some v =>
      match tgt with
      | .id x =>
        match v with
        | .str s => .ok (setVarValue st1 x none s)
        | .num q => .ok (setVarValue st1 x none (fmtG q))
        | .arr ref => .ok (setVarAssoc st1 x ref)
      | .elem x kExpr => do
        let (st2, kr) ← evalExpr fs f kExpr .print st1
        match kr with
        | none => .ok (emit st2 errFailIndex)
        | some (.arr _) => .ok (emit st2 errAssignIndexType)
        | some kv =>
          let key := keyText kv
          match v with
          | .str s => .ok (setVarValue st2 x (some key) s)
          | .num q => .ok (setVarValue st2 x (some key) (fmtG q))
          | .arr _ => .ok (emit st2 errCannotAssignArr)

/-- `execute_if_statement`: an array condition is a type error and neither
branch is executed. -/
def execIf (fs : List Func) : Nat → Expr → List Stmt → List Stmt → St → Res St
  | 0, _, _, _, _ => .oof
  | f+1, c, thn, els, st => do
    let (st1, r) ← evalExpr fs f c .arith st
    match r with
    | none => .ok (emit st1 errIfCond)
    | some (.num q) =>
      if q.isZero then execBlock fs f els st1 else execBlock fs f thn st1
    | some (.str s) =>
      if 0 < s.length then execBlock fs f thn st1 else execBlock fs f els st1
    | some (.arr _) => .ok (emit st1 errIfType)

/-- `execute_while_statement`. -/
def execWhile (fs : List Func) : Nat → Expr → List Stmt → St → Res St
  | 0, _, _, _ => .oof
  | f+1, c, body, st => do
    let (st1, r) ← evalExpr fs f c .arith st
    match r with
    | none => .ok (emit st1 errWhileCond)
    | some v =>
      if truthy st1 v then do
        let st2 ← execBlock fs f body st1
        execWhile fs f c body st2
      else .ok st1

/-- The iteration of `execute_for_statement`: the size and the current pair
are re-read from the (possibly aliased) array on every round. -/
def forIter (fs : List Func) : Nat → String → List Stmt → ArrRef → Nat → St → Res St
  | 0, _, _, _, _, _ => .oof
  | f+1, lv, body, ref, i, st =>
    let a := derefArr st ref
    if i < a.length then
      let p := a.getD i ("", "")
      do
        let st2 ← execBlock fs f body (setVarValue st lv (some p.1) p.2)
        forIter fs f lv body ref (i+1) (clearVar st2 lv)
    else .ok st

/-- `execute_for_statement`: print-context evaluation; a scalar is wrapped
into a one-entry temporary array under the empty key. -/
def execFor (fs : List Func) : Nat → String → Expr → List Stmt → St → Res St
  | 0, _, _, _, _ => .oof
  | f+1, lv, e, body, st => do
    let (st1, r) ← evalExpr fs f e .print st
    match r with
    | none => .ok (emit st1 errForExpr)
    | some (.arr ref) => forIter fs f lv body ref 0 st1
    | some (.str s) => forIter fs f lv body (.tmp [("", s)]) 0 st1
    | some (.num q) => forIter fs f lv body (.tmp [("", fmtG q)]) 0 st1

/-- `execute_ast` (top level, no return handling; a return statement here
hits the unknown-node branch). -/
def execStmt (fs : List Func) : Nat → Stmt → St → Res St
  | 0, _, _ => .oof
  | f+1, .print e, st => evalAndPrint fs f e st
  | f+1, .assign tgt e, st => execAssign fs f tgt e st
  | f+1, .ifS c thn els, st => execIf fs f c thn els st
  | f+1, .forS lv e body, st => execFor fs f lv e body st
  | f+1, .whileS c body, st => execWhile fs f c body st
  | _+1, .funcDef _ _ _, st => .ok st
  | f+1, .callS name args, st => do
    let (st1, _) ← execCall fs f name args st
    .ok st1
  | _+1, .ret _, st => .ok (emit st errUnknownAst12)

/-- `execute_block`. -/
def execBlock (fs : List Func) : Nat → List Stmt → St → Res St
  | 0, _, _ => .oof
  | _+1, [], st => .ok st
  | f+1, s :: rest, st => do
    let st1 ← execStmt fs f s st
    execBlock fs f rest st1

/-- `execute_ast_with_return`: only print, assignment, definition, call and
return are handled; if/while/for fall into the unknown-node branch. -/
def execStmtWR (fs : List Func) : Nat → Stmt → St → Res (St × FunRet)
  | 0, _, _ => .oof
  | f+1, .print e, st => do
    let st1 ← evalAndPrint fs f e st
    .ok (st1, noRet)
  | f+1, .assign tgt e, st => do
    let st1 ← execAssign fs f tgt e st
    .ok (st1, noRet)
  | _+1, .funcDef _ _ _, st => .ok (st, noRet)
  | f+1, .callS name args, st => do
    let (st1, _) ← execCall fs f name args st
    .ok (st1, noRet)
  | f+1, .ret e, st => do
    let (st1, r) ← evalExpr fs f e .arith st
    match r with
    | none => .ok (emit st1 errFailRet, retNumZero)
    | some (.num q) => .ok (st1, ⟨true, .num q⟩)
    | some (.str s) => .ok (st1, ⟨true, .str s⟩)
    | some (.arr ref) => .ok (st1, ⟨true, .arr (derefArr st1 ref)⟩)
  | _+1, .ifS _ _ _, st => .ok (emit st errUnknownWR, noRet)
  | _+1, .whileS _ _, st => .ok (emit st errUnknownWR, noRet)
  | _+1, .forS _ _ _, st => .ok (emit st errUnknownWR, noRet)

/-- `execute_block_with_return`: stops at the first pending return. -/
def execBlockWR (fs : List Func) : Nat → List Stmt → St → Res (St × FunRet)
  | 0, _, _ => .oof
  | _+1, [], st => .ok (st, noRet)
  | f+1, s :: rest, st => do
    let (st1, r) ← execStmtWR fs f s st
    if r.hasReturn then .ok (st1, r) else execBlockWR fs f rest st1

end

/-! ## Helper lemmas -/

/-- The conversion a pending return applies to the evaluated expression:
arrays are deep-copied out of the callee frame. -/
def rvalOf (st : St) : EvalVal → RVal
  | .num q => .num q
  | .str s => .str s
  | .arr r => .arr (derefArr st r)

lemma lookupVar_backing {st : St} {x : String} {i : Nat} {v : Variable}
    (hv : lookupVar st x = some (i, v)) : backing st i = v := by
  unfold lookupVar at hv
  cases h : findVarIdx st x with
  | none => rw [h] at hv; exact absurd hv (by simp)
  | some j =>
    rw [h] at hv
    have h2 : (j, backing st j) = (i, v) := by
      injection hv
    have hji : j = i := congrArg Prod.fst h2
    have hb : backing st j = v := congrArg Prod.snd h2
    subst hji
    exact hb

/-! ## Claims -/

/-- C1: evaluating a bare identifier in arithmetic context collapses a
one-entry array (whatever the key) to that entry's value, parsed as a number
exactly when the text starts with a digit or a minus followed by a digit
(`valueOfText`), and yields the whole array for every other size. -/
theorem c1_arith_ident_collapse (fs : List Func) (g : Nat) (st : St)
    (x : String) (i : Nat) (v : Variable)
    (hv : lookupVar st x = some (i, v)) :
    (v.arr.length = 1 →
      evalExpr fs (g+1) (.ident x) .arith st
        = .ok (st, some (valueOfText (v.arr.headD ("", "")).2)))
    ∧ (v.arr.length ≠ 1 →
      evalExpr fs (g+1) (.ident x) .arith st = .ok (st, some (.arr (.var i)))
        ∧ derefArr st (.var i) = v.arr) := by
  have hb : backing st i = v := lookupVar_backing hv
  constructor
  · intro h1
    simp [evalExpr, hv, h1]
  · intro h1
    constructor
    · simp [evalExpr, hv, h1]
    · simp [derefArr, hb]

/-- Witness for C1: `x = {"k": "7"}` collapses to the number 7 even though
the key is not the default one; `y` with two entries yields the array. -/
theorem c1_arith_ident_collapse_witness :
    lookupVar ⟨[⟨"x", [("k", "7")]⟩], 1, [], []⟩ "x" = some (0, ⟨"x", [("k", "7")]⟩)
    ∧ evalExpr [] 1 (.ident "x") .arith ⟨[⟨"x", [("k", "7")]⟩], 1, [], []⟩
        = .ok (⟨[⟨"x", [("k", "7")]⟩], 1, [], []⟩, some (.num ⟨7,1⟩)) := by
  refine ⟨by decide, ?_⟩
  have h := (c1_arith_ident_collapse [] 0 ⟨[⟨"x", [("k", "7")]⟩], 1, [], []⟩
      "x" 0 ⟨"x", [("k", "7")]⟩ (by decide)).1 (by decide)
  rw [h]
  decide

/-- C2 (code bug): after `x = 1` the caller sees `x`, but calling a function
with an empty body leaves the global `variable_count` at the callee value 0
(`pop_scope` assigns the saved count to a shadowing local), so `x` is no
longer visible even though its backing slot was restored. -/
theorem c2_popscope_count_bug :
    (execStmt [⟨"f", [], []⟩] 50 (.assign (.id "x") (.lit "1")) ⟨[], 0, [], []⟩
       = .ok ⟨[⟨"x", [("", "1")]⟩], 1, [], []⟩)
    ∧ lookupVar ⟨[⟨"x", [("", "1")]⟩], 1, [], []⟩ "x" = some (0, ⟨"x", [("", "1")]⟩)
    ∧ (execStmt [⟨"f", [], []⟩] 50 (.callS "f" []) ⟨[⟨"x", [("", "1")]⟩], 1, [], []⟩
       = .ok ⟨[⟨"x", [("", "1")]⟩], 0, [], []⟩)
    ∧ lookupVar ⟨[⟨"x", [("", "1")]⟩], 0, [], []⟩ "x" = none := by
  decide

/-- C3 counterexample: for `g()` whose body is `if 1 return 5 end`, the call
yields 0 and an unknown-node diagnostic, not 5: `execute_ast_with_return`
does not handle if statements, so the return never unwinds. -/
theorem c3_return_in_if_counterexample :
    execCall [⟨"g", [], [.ifS (.lit "1") [.ret (.lit "5")] []]⟩] 50 "g" []
        ⟨[], 0, [], []⟩
      = .ok (⟨[], 0, [], [errUnknownWR]⟩, ⟨true, .num ⟨0,1⟩⟩)
    ∧ ((⟨0,1⟩ : Qv) ≠ ⟨5,1⟩) := by
  decide

/-- C3 amended: inside a function body an if, while or for statement is not
executed at all in with-return mode: it is skipped with an unknown-node
diagnostic and produces no pending return, so a return nested inside it does
not unwind and the call falls back to a top-level return or 0. -/
theorem c3_nested_blocks_not_executed_with_return (fs : List Func) (g : Nat) (st : St) :
    (∀ c thn els, execStmtWR fs (g+1) (.ifS c thn els) st = .ok (emit st errUnknownWR, noRet))
    ∧ (∀ c body, execStmtWR fs (g+1) (.whileS c body) st = .ok (emit st errUnknownWR, noRet))
    ∧ (∀ lv e body, execStmtWR fs (g+1) (.forS lv e body) st = .ok (emit st errUnknownWR, noRet)) := by
  refine ⟨fun c thn els => rfl, fun c body => rfl, fun lv e body => rfl⟩

lemma bind_eq {α β : Type} (x : Res α) (f : α → Res β) : Bind.bind x f = Res.bind x f := rfl

/-- C4: for a user-defined function whose body is the single statement
`return v`, a completed call yields the value of `v` (arrays deep-copied);
and whenever the body execution produces no pending return (the empty body
included), the call yields the number 0. -/
theorem c4_single_return_and_default (fs : List Func) (g : Nat) (name : String)
    (args : List Expr) (st st1 : St) (fn : Func) (vs : List EvalVal)
    (h1 : name ≠ "len") (h2 : name ≠ "key") (h3 : name ≠ "mod") (h4 : name ≠ "bar")
    (hfind : findFunc fs name = some fn)
    (hargs : evalArgsLoop fs (g+2) fn.params args st = .ok (st1, some vs)) :
    (∀ v st2 rv, fn.body = [.ret v] →
      evalExpr fs g v .arith (bindParams (pushScope st1) fn.params vs) = .ok (st2, some rv) →
      execCall fs (g+3) name args st = .ok (popScope st2, ⟨true, rvalOf st2 rv⟩))
    ∧ (∀ st2 br, execBlockWR fs (g+2) fn.body (bindParams (pushScope st1) fn.params vs)
        = .ok (st2, br) → br.hasReturn = false →
      execCall fs (g+3) name args st = .ok (popScope st2, retNumZero)) := by
  constructor
  · intro v st2 rv hbody hv
    simp [execCall, h1, h2, h3, h4, hfind, bind_eq, hargs, Res.bind, hbody,
      execBlockWR, execStmtWR, hv, rvalOf]
    rcases rv with q | s | r <;> simp [rvalOf]
  · intro st2 br hbody hnr
    simp [execCall, h1, h2, h3, h4, hfind, bind_eq, hargs, Res.bind, hbody, hnr]

/-- Witness for C4: `f()` with body `return 7` yields the number 7 from the
call, through the theorem itself. -/
theorem c4_single_return_and_default_witness :
    findFunc [⟨"f", [], [.ret (.lit "7")]⟩] "f" = some ⟨"f", [], [.ret (.lit "7")]⟩
    ∧ evalArgsLoop [⟨"f", [], [.ret (.lit "7")]⟩] 7 [] [] ⟨[], 0, [], []⟩
        = .ok (⟨[], 0, [], []⟩, some [])
    ∧ execCall [⟨"f", [], [.ret (.lit "7")]⟩] 8 "f" [] ⟨[], 0, [], []⟩
        = .ok (popScope (pushScope ⟨[], 0, [], []⟩), ⟨true, .num ⟨7,1⟩⟩) := by
  refine ⟨rfl, by decide, ?_⟩
  have h := (c4_single_return_and_default [⟨"f", [], [.ret (.lit "7")]⟩] 5 "f" []
      ⟨[], 0, [], []⟩ ⟨[], 0, [], []⟩ ⟨"f", [], [.ret (.lit "7")]⟩ []
      (by decide) (by decide) (by decide) (by decide) rfl (by decide)).1
      (.lit "7") (pushScope ⟨[], 0, [], []⟩) (.num ⟨7,1⟩) rfl (by decide)
  rw [h]
  decide

def isNumV : EvalVal → Bool
  | .num _ => true
  | _ => false

def isStrV : EvalVal → Bool
  | .str _ => true
  | _ => false

/-- C7 counterexample: an `if` whose condition evaluates (in arithmetic
context) to a two-entry array does not execute the then-branch; it prints an
invalid-condition diagnostic instead, although the claim calls an array with
at least one entry truthy. -/
theorem c7_if_array_condition_counterexample :
    execStmt [] 50 (.ifS (.ident "a") [.print (.lit "yes")] [])
        ⟨[⟨"a", [("p","1"),("q","2")]⟩], 1, [], []⟩
      = .ok ⟨[⟨"a", [("p","1"),("q","2")]⟩], 1, [], [errIfType]⟩
    ∧ 1 ≤ (derefArr ⟨[⟨"a", [("p","1"),("q","2")]⟩], 1, [], []⟩ (.var 0)).length
    ∧ errIfType ≠ "yes" := by
  decide

/-- C7 amended: the if condition is evaluated in arithmetic context; a
number is truthy iff nonzero and a string iff non-empty; with a false
condition and empty else-part the statement only performs the evaluation; an
array condition is a type error: a diagnostic is printed and neither branch
executes. -/
theorem c7_if_truthiness_amended (fs : List Func) (g : Nat) (st st1 : St)
    (c : Expr) (thn els : List Stmt) (v : EvalVal)
    (h : evalExpr fs g c .arith st = .ok (st1, some v)) :
    (∀ q, v = .num q →
      execStmt fs (g+2) (.ifS c thn els) st
        = if q.isZero then execBlock fs g els st1 else execBlock fs g thn st1)
    ∧ (∀ s, v = .str s →
      execStmt fs (g+2) (.ifS c thn els) st
        = if 0 < s.length then execBlock fs g thn st1 else execBlock fs g els st1)
    ∧ (∀ r, v = .arr r →
      execStmt fs (g+2) (.ifS c thn els) st = .ok (emit st1 errIfType))
    ∧ (∀ q m, v = .num q → q.isZero = true → els = [] → g = m+1 →
      execStmt fs (g+2) (.ifS c thn []) st = .ok st1) := by
  refine ⟨?_, ?_, ?_, ?_⟩
  · intro q hq
    subst hq
    simp [execStmt, execIf, bind_eq, Res.bind, h]
  · intro s hs
    subst hs
    simp [execStmt, execIf, bind_eq, Res.bind, h]
  · intro r hr
    subst hr
    simp [execStmt, execIf, bind_eq, Res.bind, h]
  · intro q m hq hz hels hg
    subst hq
    subst hg
    simp [execStmt, execIf, bind_eq, Res.bind, h, hz, execBlock]

/-- Witness for C7: `if 1 print("y") end` runs the then-branch. -/
theorem c7_if_truthiness_amended_witness :
    evalExpr [] 1 (.lit "1") .arith ⟨[], 0, [], []⟩
      = .ok (⟨[], 0, [], []⟩, some (.num ⟨1,1⟩))
    ∧ execStmt [] 3 (.ifS (.lit "1") [.print (.lit "y")] []) ⟨[], 0, [], []⟩
      = execBlock [] 1 [.print (.lit "y")] ⟨[], 0, [], []⟩ := by
  refine ⟨by decide, ?_⟩
  have h := (c7_if_truthiness_amended [] 1 ⟨[], 0, [], []⟩ ⟨[], 0, [], []⟩
      (.lit "1") [.print (.lit "y")] [] (.num ⟨1,1⟩) (by decide)).1 ⟨1,1⟩ rfl
  rw [h]
  decide

/-- C8 (code bug): in `execute_function_call` the pop on the
argument-evaluation failure path runs before any push, so a call made at
scope depth 1 whose argument fails to evaluate pops the caller frame and
leaves depth 0: the depth is not preserved and the pop is unmatched. -/
theorem c8_unbalanced_pop_on_arg_failure :
    execCall [⟨"f", ["p"], []⟩] 10 "f" [.ident "u"] ⟨[], 0, [([], 0)], []⟩
      = .ok (⟨[], 0, [], [errUndefVar "u", errFailArg]⟩, retNumZero)
    ∧ (⟨[], 0, [([], 0)], []⟩ : St).scopes.length = 1
    ∧ (⟨[], 0, [], [errUndefVar "u", errFailArg]⟩ : St).scopes.length = 0 := by
  decide

/-- C9 counterexample, three clauses against the claim as stated: an extra
third argument is ignored rather than rejected (mod(7,3,5) = 1, not 0);
mod(0-3/2, 2) is -1 by C truncation while floor semantics give 0; a
non-number argument yields 0 with no diagnostic printed. -/
theorem c9_mod_counterexample :
    (execCall [] 10 "mod" [.lit "7", .lit "3", .lit "5"] ⟨[], 0, [], []⟩
        = .ok (⟨[], 0, [], []⟩, ⟨true, .num ⟨1,1⟩⟩) ∧ (⟨1,1⟩ : Qv) ≠ ⟨0,1⟩)
    ∧ (execCall [] 10 "mod"
          [.binop .sub (.lit "0") (.binop .div (.lit "3") (.lit "2")), .lit "2"]
          ⟨[], 0, [], []⟩
        = .ok (⟨[], 0, [], []⟩, ⟨true, .num ⟨-1,1⟩⟩)
       ∧ tmodZ (Qv.floor ⟨-3,2⟩) (Qv.floor ⟨2,1⟩) = 0 ∧ (⟨-1,1⟩ : Qv) ≠ ⟨0,1⟩)
    ∧ execCall [] 10 "mod" [.lit "a", .lit "2"] ⟨[], 0, [], []⟩
        = .ok (⟨[], 0, [], []⟩, ⟨true, .num ⟨0,1⟩⟩) := by
  decide

/-- C9 amended: `mod` evaluates its first two arguments in arithmetic
context, ignoring extras; if both are numbers it returns the C truncated
remainder `(int)a % (int)b`; fewer than two arguments give 0 after a
diagnostic; a non-number argument gives 0 silently. -/
theorem c9_mod_amended (fs : List Func) (g : Nat) (st st1 st2 : St)
    (a1 a2 : Expr) (rest : List Expr) (v1 v2 : EvalVal)
    (h1 : evalExpr fs g a1 .arith st = .ok (st1, some v1))
    (h2 : evalExpr fs g a2 .arith st1 = .ok (st2, some v2)) :
    (∀ qa qb, v1 = .num qa → v2 = .num qb →
      execCall fs (g+2) "mod" (a1 :: a2 :: rest) st
        = .ok (st2, ⟨true, .num ⟨tmodZ qa.trunc qb.trunc, 1⟩⟩))
    ∧ (isNumV v1 = false ∨ isNumV v2 = false →
      execCall fs (g+2) "mod" (a1 :: a2 :: rest) st = .ok (st2, retNumZero))
    ∧ execCall fs (g+2) "mod" [] st = .ok (emit st errModArgs, retNumZero)
    ∧ (∀ a, execCall fs (g+2) "mod" [a] st = .ok (emit st errModArgs, retNumZero)) := by
  refine ⟨?_, ?_, ?_, ?_⟩
  · intro qa qb hqa hqb
    subst hqa
    subst hqb
    simp [execCall, kvstdlibMod, bind_eq, Res.bind, h1, h2]
  · intro hnn
    rcases v1 with qa | s1 | r1 <;> rcases v2 with qb | s2 | r2 <;>
      simp [isNumV] at hnn <;>
      simp [execCall, kvstdlibMod, bind_eq, Res.bind, h1, h2]
  · simp [execCall, kvstdlibMod]
  · intro a
    simp [execCall, kvstdlibMod]

/-- Witness for C9: mod(7, 3) = 1 via the theorem. -/
theorem c9_mod_amended_witness :
    evalExpr [] 1 (.lit "7") .arith ⟨[], 0, [], []⟩
      = .ok (⟨[], 0, [], []⟩, some (.num ⟨7,1⟩))
    ∧ evalExpr [] 1 (.lit "3") .arith ⟨[], 0, [], []⟩
      = .ok (⟨[], 0, [], []⟩, some (.num ⟨3,1⟩))
    ∧ execCall [] 3 "mod" [.lit "7", .lit "3"] ⟨[], 0, [], []⟩
      = .ok (⟨[], 0, [], []⟩, ⟨true, .num ⟨tmodZ (Qv.trunc ⟨7,1⟩) (Qv.trunc ⟨3,1⟩), 1⟩⟩) := by
  refine ⟨by decide, by decide, ?_⟩
  exact (c9_mod_amended [] 1 ⟨[], 0, [], []⟩ ⟨[], 0, [], []⟩ ⟨[], 0, [], []⟩
      (.lit "7") (.lit "3") [] (.num ⟨7,1⟩) (.num ⟨3,1⟩)
      (by decide) (by decide)).1 ⟨7,1⟩ ⟨3,1⟩ rfl rfl

lemma findIdxFrom_congr {st st' : St} (hv : st.vars = st'.vars) (x : String) :
    ∀ rem i, findIdxFrom st x rem i = findIdxFrom st' x rem i := by
  intro rem
  induction rem with
  | zero => intro i; rfl
  | succ n ih =>
    intro i
    simp only [findIdxFrom, backing, hv]
    rw [ih (i+1)]

lemma lookupVar_congr {st st' : St} (hv : st.vars = st'.vars)
    (hc : st.varCount = st'.varCount) (x : String) :
    lookupVar st x = lookupVar st' x := by
  unfold lookupVar findVarIdx
  rw [hc, findIdxFrom_congr hv]
  cases h : findIdxFrom st' x st'.varCount 0 <;> simp [backing, hv]

/-- C10: assigning an array-valued right-hand side into an array element
only prints a diagnostic: the resulting state is exactly the state after the
two expression evaluations plus the error line, so the target variable keeps
whatever binding it had (and is not created if absent). -/
theorem c10_array_into_element_only_reports (fs : List Func) (g : Nat)
    (st st1 st2 : St) (x : String) (kExpr e : Expr) (r : ArrRef) (kv : EvalVal)
    (he : evalExpr fs g e .arith st = .ok (st1, some (.arr r)))
    (hk : evalExpr fs g kExpr .print st1 = .ok (st2, some kv))
    (hkv : isNumV kv = true ∨ isStrV kv = true) :
    execStmt fs (g+2) (.assign (.elem x kExpr) e) st = .ok (emit st2 errCannotAssignArr)
    ∧ lookupVar (emit st2 errCannotAssignArr) x = lookupVar st2 x
    ∧ (lookupVar st2 x = none → lookupVar (emit st2 errCannotAssignArr) x = none) := by
  refine ⟨?_, @lookupVar_congr (emit st2 errCannotAssignArr) st2 rfl rfl x,
    fun h => (@lookupVar_congr (emit st2 errCannotAssignArr) st2 rfl rfl x).trans h⟩
  rcases kv with q | s | r2
  · simp [execStmt, execAssign, bind_eq, Res.bind, he, hk]
  · simp [execStmt, execAssign, bind_eq, Res.bind, he, hk]
  · simp [isNumV, isStrV] at hkv

/-- Witness for C10: `x["k"] = a` with `a` a two-entry array reports the
error and does not create `x`. -/
theorem c10_array_into_element_only_reports_witness :
    evalExpr [] 5 (.ident "a") .arith ⟨[⟨"a", [("p","1"),("q","2")]⟩], 1, [], []⟩
      = .ok (⟨[⟨"a", [("p","1"),("q","2")]⟩], 1, [], []⟩, some (.arr (.var 0)))
    ∧ evalExpr [] 5 (.lit "k") .print ⟨[⟨"a", [("p","1"),("q","2")]⟩], 1, [], []⟩
      = .ok (⟨[⟨"a", [("p","1"),("q","2")]⟩], 1, [], []⟩, some (.str "k"))
    ∧ execStmt [] 7 (.assign (.elem "x" (.lit "k")) (.ident "a"))
        ⟨[⟨"a", [("p","1"),("q","2")]⟩], 1, [], []⟩
      = .ok (emit ⟨[⟨"a", [("p","1"),("q","2")]⟩], 1, [], []⟩ errCannotAssignArr)
    ∧ lookupVar ⟨[⟨"a", [("p","1"),("q","2")]⟩], 1, [], []⟩ "x" = none := by
  refine ⟨by decide, by decide, ?_, by decide⟩
  exact (c10_array_into_element_only_reports [] 5
      ⟨[⟨"a", [("p","1"),("q","2")]⟩], 1, [], []⟩
      ⟨[⟨"a", [("p","1"),("q","2")]⟩], 1, [], []⟩
      ⟨[⟨"a", [("p","1"),("q","2")]⟩], 1, [], []⟩
      "x" (.lit "k") (.ident "a") (.var 0) (.str "k")
      (by decide) (by decide) (Or.inr (by decide))).1

/-! ## C5 support: the stored text of a scalar and when it reads back -/

/-- The text an assignment stores for a scalar result (numbers via `%g`). -/
def storedText : EvalVal → String
  | .num q => fmtG q
  | .str s => s
  | .arr _ => ""

/-- A scalar survives the store/read round trip: a number must re-parse from
its `%g` text to itself, a string must not look numeric (else the read
re-parses it as a number). -/
def ScalarRT : EvalVal → Prop
  | .num q => parseNum (fmtG q) = q
  | .str s => isNumLexeme s = false
  | .arr _ => False

lemma digitChar_isDigit (k : Nat) (h : k < 10) : (Char.ofNat (48 + k)).isDigit = true := by
  interval_cases k <;> decide

lemma natToDigsF_digits : ∀ f n c, c ∈ natToDigsF f n → c.isDigit = true := by
  intro f
  induction f with
  | zero => intro n c h; simp [natToDigsF] at h
  | succ m ih =>
    intro n c h
    simp only [natToDigsF] at h
    by_cases hn : n < 10
    · rw [if_pos hn] at h
      simp at h
      subst h
      exact digitChar_isDigit n hn
    · rw [if_neg hn] at h
      simp at h
      rcases h with h | h
      · exact ih _ _ h
      · subst h
        exact digitChar_isDigit _ (Nat.mod_lt _ (by norm_num))

lemma natToDigsF_ne_nil (f n : Nat) (hf : 0 < f) : natToDigsF f n ≠ [] := by
  cases f with
  | zero => exact absurd hf (lt_irrefl 0)
  | succ m =>
    simp only [natToDigsF]
    by_cases hn : n < 10
    · rw [if_pos hn]; simp
    · rw [if_neg hn]; simp

lemma natToDigs_digits (n : Nat) : ∀ c ∈ natToDigs n, c.isDigit = true :=
  natToDigsF_digits (n+1) n

lemma natToDigs_ne_nil (n : Nat) : natToDigs n ≠ [] :=
  natToDigsF_ne_nil (n+1) n (Nat.succ_pos n)

lemma head?_to_cons {l : List Char} {c : Char} (h : l.head? = some c) :
    ∃ cs, l = c :: cs := by
  cases l with
  | nil => simp at h
  | cons a m =>
    simp at h
    subst h
    exact ⟨m, rfl⟩

lemma sciStr_head (ds : List Char) (e : Int) (hds : ∀ c ∈ ds, c.isDigit = true) :
    ∃ c, (sciStr ds e).data.head? = some c ∧ c.isDigit = true := by
  refine ⟨ds.headD '0', ?_, ?_⟩
  · unfold sciStr
    simp [String.data_append]
  · cases ds with
    | nil => decide
    | cons a l => exact hds a (by simp)

lemma fixedStr_head (ds : List Char) (e : Int) (hne : ds ≠ [])
    (hds : ∀ c ∈ ds, c.isDigit = true) :
    ∃ c, (fixedStr ds e).data.head? = some c ∧ c.isDigit = true := by
  unfold fixedStr
  by_cases he : 0 ≤ e
  · rw [if_pos he]
    cases ds with
    | nil => exact absurd rfl hne
    | cons a l =>
      refine ⟨a, ?_, hds a (by simp)⟩
      simp [String.data_append]
  · rw [if_neg he]
    refine ⟨'0', ?_, by decide⟩
    simp [String.data_append, show ("0." : String).data = ['0', '.'] from rfl]

lemma fmtGpos_head (x : Qv) :
    ∃ c, (fmtGpos x).data.head? = some c ∧ c.isDigit = true := by
  unfold fmtGpos
  dsimp only
  split <;> split
  all_goals
    first
      | exact sciStr_head _ _ (natToDigs_digits _)
      | exact fixedStr_head _ _ (natToDigs_ne_nil _) (natToDigs_digits _)

lemma fmtG_isNumLexeme (q : Qv) : isNumLexeme (fmtG q) = true := by
  unfold fmtG
  by_cases h0 : q.num = 0
  · rw [if_pos h0]; decide
  · rw [if_neg h0]
    by_cases hneg : q.num < 0
    · rw [if_pos hneg]
      obtain ⟨c, hc1, hc2⟩ := fmtGpos_head q.neg
      obtain ⟨cs, hcs⟩ := head?_to_cons hc1
      unfold isNumLexeme
      rw [String.data_append, show ("-" : String).data = ['-'] from rfl, hcs]
      simp [hc2]
    · rw [if_neg hneg]
      obtain ⟨c, hc1, hc2⟩ := fmtGpos_head q
      obtain ⟨cs, hcs⟩ := head?_to_cons hc1
      unfold isNumLexeme
      rw [hcs]
      simp [hc2]

lemma valueOfText_storedText (v : EvalVal) (h : ScalarRT v) :
    valueOfText (storedText v) = v := by
  rcases v with q | s | r
  · unfold ScalarRT at h
    unfold valueOfText storedText
    rw [if_pos (fmtG_isNumLexeme q), h]
  · unfold ScalarRT at h
    unfold valueOfText storedText
    rw [if_neg (by rw [h]; exact Bool.false_ne_true)]
  · exact absurd h (by simp [ScalarRT])

/-- C5 counterexample: `x = 1234567` evaluates the literal to the number
1234567, but the store goes through `%g` (six significant digits), recording
the text "1.23457e+06"; a subsequent arithmetic read of `x` re-parses that
text and yields 1234570, not the assigned value. -/
theorem c5_scalar_roundtrip_counterexample :
    (execStmt [] 50 (.assign (.id "x") (.lit "1234567")) ⟨[], 0, [], []⟩
       = .ok ⟨[⟨"x", [("", "1.23457e+06")]⟩], 1, [], []⟩)
    ∧ evalExpr [] 50 (.lit "1234567") .arith ⟨[], 0, [], []⟩
       = .ok (⟨[], 0, [], []⟩, some (.num ⟨1234567,1⟩))
    ∧ evalExpr [] 50 (.ident "x") .arith ⟨[⟨"x", [("", "1.23457e+06")]⟩], 1, [], []⟩
       = .ok (⟨[⟨"x", [("", "1.23457e+06")]⟩], 1, [], []⟩, some (.num ⟨1234570,1⟩))
    ∧ (⟨1234570,1⟩ : Qv) ≠ ⟨1234567,1⟩ := by
  decide

/-- C5 amended: a scalar assignment `x = e` stores the `%g` text of a number
or the string as-is, and a subsequent arithmetic read of `x` yields e's
value provided the stored text parses back to it (`ScalarRT`: the `%g` text
re-parses to the number; a string does not look numeric) and the variable is
left with only the default entry; likewise `x[k] = e` followed by the lookup
`x[k]` yields e's value when the index expression produces the same key text
in both evaluations. -/
theorem c5_scalar_assignment_roundtrip_amended (fs : List Func) (g : Nat)
    (st st1 : St) (x : String) (e : Expr) (v : EvalVal)
    (he : evalExpr fs g e .arith st = .ok (st1, some v))
    (hrt : ScalarRT v) :
    (execStmt fs (g+2) (.assign (.id x) e) st = .ok (setVarValue st1 x none (storedText v))
     ∧ (∀ m j nm,
         lookupVar (setVarValue st1 x none (storedText v)) x
           = some (j, ⟨nm, [("", storedText v)]⟩) →
         evalExpr fs (m+1) (.ident x) .arith (setVarValue st1 x none (storedText v))
           = .ok (setVarValue st1 x none (storedText v), some v)))
    ∧ (∀ kExpr st2 kv,
        evalExpr fs g kExpr .print st1 = .ok (st2, some kv) →
        isNumV kv = true ∨ isStrV kv = true →
        execStmt fs (g+2) (.assign (.elem x kExpr) e) st
          = .ok (setVarValue st2 x (some (keyText kv)) (storedText v))
        ∧ (∀ m kv2 j w,
            evalExpr fs m kExpr .arith (setVarValue st2 x (some (keyText kv)) (storedText v))
              = .ok (setVarValue st2 x (some (keyText kv)) (storedText v), some kv2) →
            isNumV kv2 = true ∨ isStrV kv2 = true →
            keyText kv2 = keyText kv →
            lookupVar (setVarValue st2 x (some (keyText kv)) (storedText v)) x = some (j, w) →
            getA w.arr (keyText kv) = some (storedText v) →
            evalExpr fs (m+1) (.arrAccess x kExpr) .arith
                (setVarValue st2 x (some (keyText kv)) (storedText v))
              = .ok (setVarValue st2 x (some (keyText kv)) (storedText v), some v))) := by
  constructor
  · constructor
    · rcases v with q | s | r
      · simp [execStmt, execAssign, bind_eq, Res.bind, he, storedText]
      · simp [execStmt, execAssign, bind_eq, Res.bind, he, storedText]
      · exact absurd hrt (by simp [ScalarRT])
    · intro m j nm hlook
      simp [evalExpr, hlook, valueOfText_storedText v hrt]
  · intro kExpr st2 kv hk hkv
    constructor
    · rcases v with q | s | r
      · rcases kv with q2 | s2 | r2
        · simp [execStmt, execAssign, bind_eq, Res.bind, he, hk, storedText, keyText]
        · simp [execStmt, execAssign, bind_eq, Res.bind, he, hk, storedText, keyText]
        · simp [isNumV, isStrV] at hkv
      · rcases kv with q2 | s2 | r2
        · simp [execStmt, execAssign, bind_eq, Res.bind, he, hk, storedText, keyText]
        · simp [execStmt, execAssign, bind_eq, Res.bind, he, hk, storedText, keyText]
        · simp [isNumV, isStrV] at hkv
      · exact absurd hrt (by simp [ScalarRT])
    · intro m kv2 j w hk2 hkv2 hkey hlook hget
      rcases kv2 with q2 | s2 | r2
      · simp [evalExpr, bind_eq, Res.bind, hk2, hkey, hlook, hget,
          valueOfText_storedText v hrt]
      · simp [evalExpr, bind_eq, Res.bind, hk2, hkey, hlook, hget,
          valueOfText_storedText v hrt]
      · simp [isNumV, isStrV] at hkv2

/-- Witness for C5 (amended): `x = 5` stores "5" and reads back as 5, and
`y["k"] = 5` looks up as 5. -/
theorem c5_scalar_assignment_roundtrip_amended_witness :
    evalExpr [] 1 (.lit "5") .arith ⟨[], 0, [], []⟩
      = .ok (⟨[], 0, [], []⟩, some (.num ⟨5,1⟩))
    ∧ ScalarRT (.num ⟨5,1⟩)
    ∧ execStmt [] 3 (.assign (.id "x") (.lit "5")) ⟨[], 0, [], []⟩
      = .ok (setVarValue ⟨[], 0, [], []⟩ "x" none (storedText (.num ⟨5,1⟩)))
    ∧ evalExpr [] 2 (.ident "x") .arith (setVarValue ⟨[], 0, [], []⟩ "x" none (storedText (.num ⟨5,1⟩)))
      = .ok (setVarValue ⟨[], 0, [], []⟩ "x" none (storedText (.num ⟨5,1⟩)), some (.num ⟨5,1⟩)) := by
  have hs : ScalarRT (.num ⟨5,1⟩) := by
    show parseNum (fmtG ⟨5,1⟩) = (⟨5,1⟩ : Qv)
    decide
  have h := c5_scalar_assignment_roundtrip_amended [] 1 ⟨[], 0, [], []⟩ ⟨[], 0, [], []⟩
      "x" (.lit "5") (.num ⟨5,1⟩) (by decide) hs
  exact ⟨by decide, hs, h.1.1, h.1.2 1 0 "x" (by decide)⟩

/-! ## C6 support: the for loop as an unrolling over the entry list -/

/-- The per-entry unrolling the spec describes for a for loop: one body
execution per entry, in insertion order, with the loop variable bound to the
single entry before and cleared after each round (fuel mirrors `forIter`). -/
def forUnroll (fs : List Func) (lv : String) (body : List Stmt) :
    Nat → List (String × String) → St → Res St
  | 0, _, _ => .oof
  | _+1, [], st => .ok st
  | f+1, p :: rest, st => do
    let st2 ← execBlock fs f body (setVarValue st lv (some p.1) p.2)
    forUnroll fs lv body f rest (clearVar st2 lv)

lemma forIter_tmp (fs : List Func) (lv : String) (body : List Stmt)
    (a : List (String × String)) :
    ∀ n i st, forIter fs n lv body (.tmp a) i st = forUnroll fs lv body n (a.drop i) st := by
  intro n
  induction n with
  | zero => intro i st; rfl
  | succ f ih =>
    intro i st
    by_cases h : i < a.length
    · have hd : a.drop i = a.getD i ("", "") :: a.drop (i+1) := by
        rw [List.getD_eq_getElem a ("", "") h]
        exact List.drop_eq_getElem_cons h
      rw [hd]
      simp only [forIter, forUnroll, derefArr]
      rw [if_pos h]
      cases hblk : execBlock fs f body (setVarValue st lv (some (a.getD i ("", "")).1) (a.getD i ("", "")).2) with
      | oof => simp [bind_eq, Res.bind, hblk]
      | ok st2 =>
        simp [bind_eq, Res.bind, hblk]
        exact ih (i+1) (clearVar st2 lv)
    · have hd : a.drop i = [] := List.drop_eq_nil_of_le (le_of_not_lt h)
      rw [hd]
      simp only [forIter, forUnroll, derefArr]
      rw [if_neg h]

lemma getD_setBacking (v : Variable) :
    ∀ (i : Nat) (vars : List Variable) (j : Nat),
      (setBacking vars i v).getD j zeroVar = if j = i then v else vars.getD j zeroVar := by
  intro i
  induction i with
  | zero =>
    intro vars j
    cases vars <;> cases j <;> simp [setBacking]
  | succ n ih =>
    intro vars j
    cases vars with
    | nil =>
      cases j with
      | zero => simp [setBacking]
      | succ m =>
        rw [show setBacking [] (n+1) v = zeroVar :: setBacking [] n v from rfl,
          List.getD_cons_succ, ih [] m]
        by_cases h : m = n <;> simp [h]
    | cons w rest =>
      cases j with
      | zero => simp [setBacking]
      | succ m =>
        rw [show setBacking (w :: rest) (n+1) v = w :: setBacking rest n v from rfl,
          List.getD_cons_succ, ih rest m]
        by_cases h : m = n <;> simp [h]

lemma findIdxFrom_name (st : St) (x : String) :
    ∀ rem i0 j, findIdxFrom st x rem i0 = some j → (backing st j).name = x := by
  intro rem
  induction rem with
  | zero => intro i0 j h; simp [findIdxFrom] at h
  | succ n ih =>
    intro i0 j h
    simp only [findIdxFrom] at h
    by_cases hc : (backing st i0).name = x
    · rw [if_pos hc] at h
      have : i0 = j := by injection h
      subst this
      exact hc
    · rw [if_neg hc] at h
      exact ih (i0+1) j h

lemma setVarValue_preserves (s : St) (lv : String) (key : Option String) (val : String)
    (i : Nat) (hname : (backing s i).name ≠ lv) (hi : i < s.varCount) :
    backing (setVarValue s lv key val) i = backing s i
    ∧ s.varCount ≤ (setVarValue s lv key val).varCount := by
  unfold setVarValue
  cases hf : findVarIdx s lv with
  | some j =>
    have hjn : (backing s j).name = lv := findIdxFrom_name s lv s.varCount 0 j hf
    have hij : i ≠ j := fun h => hname (h ▸ hjn)
    constructor
    · unfold backing
      dsimp only
      rw [getD_setBacking, if_neg hij]
    · exact le_refl _
  | none =>
    by_cases hc : maxVariables ≤ s.varCount
    · rw [if_pos hc]
      exact ⟨rfl, le_refl _⟩
    · rw [if_neg hc]
      have hne : i ≠ s.varCount := Nat.ne_of_lt hi
      constructor
      · unfold backing
        dsimp only
        rw [getD_setBacking, if_neg hne]
      · exact Nat.le_succ _

lemma clearVar_preserves (s : St) (lv : String) (i : Nat)
    (hname : (backing s i).name ≠ lv) :
    backing (clearVar s lv) i = backing s i ∧ (clearVar s lv).varCount = s.varCount := by
  unfold clearVar
  cases hf : findVarIdx s lv with
  | some j =>
    have hjn : (backing s j).name = lv := findIdxFrom_name s lv s.varCount 0 j hf
    have hij : i ≠ j := fun h => hname (h ▸ hjn)
    constructor
    · unfold backing
      dsimp only
      rw [getD_setBacking, if_neg hij]
    · rfl
  | none => exact ⟨rfl, rfl⟩

lemma forIter_var_unroll (fs : List Func) (lv : String) (body : List Stmt)
    (i : Nat) (V : Variable) (hlv : V.name ≠ lv)
    (Hb : ∀ m s s2, execBlock fs m body s = .ok s2 →
      s2.vars = s.vars ∧ s2.varCount = s.varCount) :
    ∀ n idx s, i < s.varCount → backing s i = V →
      forIter fs n lv body (.var i) idx s = forUnroll fs lv body n (V.arr.drop idx) s := by
  intro n
  induction n with
  | zero => intro idx s _ _; rfl
  | succ f ih =>
    intro idx s hcount hback
    have hda : derefArr s (.var i) = V.arr := by
      show (backing s i).arr = V.arr
      rw [hback]
    by_cases h : idx < V.arr.length
    · have hd : V.arr.drop idx = V.arr.getD idx ("", "") :: V.arr.drop (idx+1) := by
        rw [List.getD_eq_getElem V.arr ("", "") h]
        exact List.drop_eq_getElem_cons h
      rw [hd]
      simp only [forIter, forUnroll, hda]
      rw [if_pos h]
      have hpres := setVarValue_preserves s lv (some (V.arr.getD idx ("", "")).1)
          (V.arr.getD idx ("", "")).2 i (by rw [hback]; exact hlv) hcount
      cases hblk : execBlock fs f body
          (setVarValue s lv (some (V.arr.getD idx ("", "")).1) (V.arr.getD idx ("", "")).2) with
      | oof => simp [bind_eq, Res.bind, hblk]
      | ok st2 =>
        simp only [bind_eq, Res.bind, hblk]
        obtain ⟨hv2, hc2⟩ := Hb f _ st2 hblk
        have hb2 : backing st2 i = V := by
          have h1 : backing st2 i
              = backing (setVarValue s lv (some (V.arr.getD idx ("", "")).1)
                  (V.arr.getD idx ("", "")).2) i := by
            unfold backing
            rw [hv2]
          rw [h1, hpres.1, hback]
        have hcnt2 : i < st2.varCount := by
          rw [hc2]
          exact lt_of_lt_of_le hcount hpres.2
        have hclr := clearVar_preserves st2 lv i (by rw [hb2]; exact hlv)
        refine ih (idx+1) (clearVar st2 lv) ?_ (hclr.1.trans hb2)
        rw [hclr.2]
        exact hcnt2
    · have hd : V.arr.drop idx = [] := List.drop_eq_nil_of_le (le_of_not_lt h)
      rw [hd]
      simp only [forIter, forUnroll, hda]
      rw [if_neg h]

/-- C6 counterexample: `a` has two entries, but a body that adds a third
entry to `a` while iterating makes the loop body run three times (the loop
re-reads the live array size each round through the borrowed pointer). -/
theorem c6_for_iteration_count_counterexample :
    execStmt [] 50
        (.forS "i" (.ident "a") [.print (.lit "hi"), .assign (.elem "a" (.lit "z")) (.lit "9")])
        ⟨[⟨"a", [("p","1"),("q","2")]⟩], 1, [], []⟩
      = .ok ⟨[⟨"a", [("p","1"),("q","2"),("z","9")]⟩, ⟨"i", []⟩], 2, [], ["hi", "hi", "hi"]⟩
    ∧ (⟨"a", [("p","1"),("q","2")]⟩ : Variable).arr.length = 2
    ∧ (["hi", "hi", "hi"] : List String).length ≠ 2 := by
  decide

/-- C6 amended: when the for expression evaluates (in print context) to an
array, the loop equals the per-entry unrolling `forUnroll` — one body run
per entry, in insertion order, binding the loop variable to the entry and
clearing it afterwards — unconditionally for a temporary (copied) array, and
for an array borrowed from a variable provided the body leaves the variable
store untouched; a scalar result iterates once over the synthetic entry
under the empty key (so a one-entry array, collapsed to a scalar by print
context, loses its key). -/
theorem c6_for_loop_iteration_amended (fs : List Func) (g : Nat) (st st1 : St)
    (lv : String) (e : Expr) (body : List Stmt) (v : EvalVal)
    (h1 : evalExpr fs g e .print st = .ok (st1, some v)) :
    (∀ a, v = .arr (.tmp a) →
      execStmt fs (g+2) (.forS lv e body) st = forUnroll fs lv body g a st1)
    ∧ (∀ s, v = .str s →
      execStmt fs (g+2) (.forS lv e body) st = forUnroll fs lv body g [("", s)] st1)
    ∧ (∀ q, v = .num q →
      execStmt fs (g+2) (.forS lv e body) st = forUnroll fs lv body g [("", fmtG q)] st1)
    ∧ (∀ i V, v = .arr (.var i) → backing st1 i = V → V.name ≠ lv → i < st1.varCount →
      (∀ m s s2, execBlock fs m body s = .ok s2 →
        s2.vars = s.vars ∧ s2.varCount = s.varCount) →
      execStmt fs (g+2) (.forS lv e body) st = forUnroll fs lv body g V.arr st1) := by
  refine ⟨?_, ?_, ?_, ?_⟩
  · intro a hv
    subst hv
    have h2 : execStmt fs (g+2) (.forS lv e body) st = forIter fs g lv body (.tmp a) 0 st1 := by
      simp [execStmt, execFor, bind_eq, Res.bind, h1]
    rw [h2, forIter_tmp, List.drop_zero]
  · intro s hv
    subst hv
    have h2 : execStmt fs (g+2) (.forS lv e body) st
        = forIter fs g lv body (.tmp [("", s)]) 0 st1 := by
      simp [execStmt, execFor, bind_eq, Res.bind, h1]
    rw [h2, forIter_tmp, List.drop_zero]
  · intro q hv
    subst hv
    have h2 : execStmt fs (g+2) (.forS lv e body) st
        = forIter fs g lv body (.tmp [("", fmtG q)]) 0 st1 := by
      simp [execStmt, execFor, bind_eq, Res.bind, h1]
    rw [h2, forIter_tmp, List.drop_zero]
  · intro i V hv hback hlv hcount Hb
    subst hv
    have h2 : execStmt fs (g+2) (.forS lv e body) st = forIter fs g lv body (.var i) 0 st1 := by
      simp [execStmt, execFor, bind_eq, Res.bind, h1]
    rw [h2, forIter_var_unroll fs lv body i V hlv Hb g 0 st1 hcount hback, List.drop_zero]

/-- Witness for C6 (amended): `for k in a` over a two-entry array with an
empty body runs the two unrolled rounds. -/
theorem c6_for_loop_iteration_amended_witness :
    evalExpr [] 10 (.ident "a") .print ⟨[⟨"a", [("p","1"),("q","2")]⟩], 1, [], []⟩
      = .ok (⟨[⟨"a", [("p","1"),("q","2")]⟩], 1, [], []⟩, some (.arr (.var 0)))
    ∧ execStmt [] 12 (.forS "k" (.ident "a") []) ⟨[⟨"a", [("p","1"),("q","2")]⟩], 1, [], []⟩
      = forUnroll [] "k" [] 10 [("p","1"),("q","2")] ⟨[⟨"a", [("p","1"),("q","2")]⟩], 1, [], []⟩ := by
  have Hb : ∀ m s s2, execBlock [] m [] s = .ok s2 →
      s2.vars = s.vars ∧ s2.varCount = s.varCount := by
    intro m s s2 h
    cases m with
    | zero => simp [execBlock] at h
    | succ k =>
      simp only [execBlock] at h
      have h2 : s = s2 := by injection h
      subst h2
      exact ⟨rfl, rfl⟩
  have h := (c6_for_loop_iteration_amended [] 10
      ⟨[⟨"a", [("p","1"),("q","2")]⟩], 1, [], []⟩
      ⟨[⟨"a", [("p","1"),("q","2")]⟩], 1, [], []⟩
      "k" (.ident "a") [] (.arr (.var 0)) (by decide)).2.2.2
      0 ⟨"a", [("p","1"),("q","2")]⟩ rfl (by decide) (by decide) (by decide) Hb
  exact ⟨by decide, h⟩
